import Mathlib

/-!
Verification development for the recommendation-algorithm feeder.

The definitions below are a shallow embedding of the engagement engine:
keyword matching (src/matchers/keyword-matcher.ts, src/services/match-service.ts),
the playback-duration safety clamp (src/platforms/bilibili/bilibili-simulator.ts),
the history store's dedup interface (src/services/history-service.ts),
queue admission and worker execution (src/services/concurrent-player.ts and
the SimulatedPlaybackManager in src/services/simulated-playback-manager.ts),
and the feeding-loop / active-search counters (src/core/feeder.ts).
JavaScript strings are lists of characters, numbers are ℕ or ℚ, and the
nondeterministic inputs (Math.random draws, wall-clock elapsed time, network
success or failure) are explicit parameters.
-/

/-- JavaScript strings, modelled as lists of characters. -/
abbrev Str := List Char

/-- Does the second list occur as an initial segment of the first?
Auxiliary step of the substring check behind String.prototype.includes. -/
def strStartsWith : Str → Str → Bool
  | _, [] => true
  | [], _ :: _ => false
  | a :: hay, b :: pat => a == b && strStartsWith hay pat

/-- `strIncludes hay pat`: String.prototype.includes — `pat` occurs as a
contiguous substring of `hay` (the empty pattern always occurs). -/
def strIncludes : Str → Str → Bool
  | [], pat => pat.isEmpty
  | a :: hay, pat => strStartsWith (a :: hay) pat || strIncludes hay pat

/-- String.prototype.toLowerCase over the modelled characters. -/
def lowerStr (s : Str) : Str := s.map Char.toLower

/-- `Array.prototype.join(' ')`. -/
def joinSpace : List Str → Str
  | [] => []
  | [s] => s
  | s :: rest => s ++ ' ' :: joinSpace rest

/-- VideoInfo (src/types/index.ts): the fields the core engine reads.
A missing author is the empty string, missing tags the empty list. -/
structure VideoInfo where
  id : Str
  title : Str
  author : Str
  tags : List Str

deriving instance DecidableEq for VideoInfo

/-- Match mode of MatcherConfig: 'any' | 'all'. -/
inductive MatchMode
  | any
  | all

deriving instance DecidableEq for MatchMode

/-- MatcherConfig (src/types/index.ts): keywords, matchMode, caseSensitive. -/
structure MatcherConfig where
  keywords : List Str
  matchMode : MatchMode
  caseSensitive : Bool

deriving instance DecidableEq for MatcherConfig

/-- The keyword scan shared by MatchService.checkVideoMatch (match-service.ts
lines 23–33), AlgorithmFeeder.getMatchedKeywords (feeder.ts lines 477–489) and
ConcurrentPlayer.getVideoMatchedKeywords (concurrent-player.ts lines 260–272):
the search text `title + ' ' + author` is lowercased unconditionally, each
keyword is lowercased only when caseSensitive is off, and the keywords found
as substrings are collected in configuration order. -/
def keywordsFoundIn (caseSensitive : Bool) (keywords : List Str) (v : VideoInfo) : List Str :=
  keywords.filter (fun k =>
    strIncludes (lowerStr (v.title ++ ' ' :: v.author))
      (if caseSensitive then k else lowerStr k))

/-- MatchService.checkVideoMatch (match-service.ts lines 20–43): collect the
keywords found in the video's search text; in mode 'all' return them only when
every configured keyword was found, otherwise the empty list. -/
def checkVideoMatch (cfg : MatcherConfig) (v : VideoInfo) : List Str :=
  let matchedKeywords := keywordsFoundIn cfg.caseSensitive cfg.keywords v
  if cfg.matchMode = MatchMode.all then
    if matchedKeywords.length = cfg.keywords.length then matchedKeywords else []
  else
    matchedKeywords

/-- KeywordMatcher.prepareTextForMatching (keyword-matcher.ts lines 54–71):
title, then author when truthy, then the tags when present, joined by spaces;
lowercased unless caseSensitive. -/
def prepareTextForMatching (cfg : MatcherConfig) (v : VideoInfo) : Str :=
  let texts := [v.title] ++ (if v.author ≠ [] then [v.author] else [])
      ++ (if v.tags ≠ [] then v.tags else [])
  let combinedText := joinSpace texts
  if cfg.caseSensitive then combinedText else lowerStr combinedText

/-- KeywordMatcher.performMatching (keyword-matcher.ts lines 76–91):
mode 'all' requires every keyword as a substring, mode 'any' at least one;
keywords are lowercased unless caseSensitive. -/
def performMatching (cfg : MatcherConfig) (text : Str) : Bool :=
  let keywords := if cfg.caseSensitive then cfg.keywords else cfg.keywords.map lowerStr
  match cfg.matchMode with
  | MatchMode.all => keywords.all (fun k => strIncludes text k)
  | MatchMode.any => keywords.any (fun k => strIncludes text k)

/-- KeywordMatcher.match (keyword-matcher.ts lines 30–49): an empty keyword
list short-circuits to false before performMatching is consulted. -/
def kmMatch (cfg : MatcherConfig) (v : VideoInfo) : Bool :=
  if cfg.keywords.length = 0 then false
  else performMatching cfg (prepareTextForMatching cfg v)

/-- The search text exactly as claim C2 words it: case-folded unless case
sensitivity is configured. (Spec-side definition, for comparison with
`checkVideoMatch`, which always folds the search text.) -/
def claimSearchText (cfg : MatcherConfig) (v : VideoInfo) : Str :=
  if cfg.caseSensitive then v.title ++ ' ' :: v.author
  else lowerStr (v.title ++ ' ' :: v.author)

/-- Mode-'any' result as claim C2 words it: exactly the configured keywords
whose (folded unless case-sensitive) text occurs in `claimSearchText`. -/
def claimAnyResult (cfg : MatcherConfig) (v : VideoInfo) : List Str :=
  cfg.keywords.filter
    (fun k => strIncludes (claimSearchText cfg v) (if cfg.caseSensitive then k else lowerStr k))

/-- Concrete matcher configuration: one keyword "Cat", mode 'any',
caseSensitive on. -/
def cfgCase : MatcherConfig := ⟨["Cat".toList], MatchMode.any, true⟩

/-- Concrete video whose title is exactly "Cat". -/
def vCat : VideoInfo := ⟨"BV1".toList, "Cat".toList, [], []⟩

/-- Mode-'any' result as the amended claim C2 words it: the search text is
always case-folded; each keyword is folded only when case sensitivity is off. -/
def amendedAnyResult (cfg : MatcherConfig) (v : VideoInfo) : List Str :=
  cfg.keywords.filter
    (fun k => strIncludes (lowerStr (v.title ++ ' ' :: v.author))
      (if cfg.caseSensitive then k else lowerStr k))

/-- A filter that keeps the full length keeps the whole list. -/
theorem filter_eq_self_of_length_eq {α : Type} (p : α → Bool) (l : List α)
    (h : (l.filter p).length = l.length) : l.filter p = l :=
  (List.filter_sublist l).eq_of_length h

/-- C2 counterexample: with caseSensitive configured, keyword "Cat" occurs in
the raw search text of `vCat`, so the claim says checkVideoMatch returns
["Cat"]; the code returns [] because it lowercases the search text even in
case-sensitive mode. -/
theorem checkVideoMatch_caseSensitive_counterexample :
    checkVideoMatch cfgCase vCat = [] ∧
    claimAnyResult cfgCase vCat = ["Cat".toList] ∧
    cfgCase.caseSensitive = true ∧ cfgCase.matchMode = MatchMode.any := by
  decide

/-- C2 (amended): checkVideoMatch in mode 'all' returns the complete keyword
list or the empty list; in mode 'any' it returns exactly the keywords whose
text occurs in the search text built from title and author, where the search
text is always case-folded and the keywords are case-folded unless case
sensitivity is configured. -/
theorem checkVideoMatch_characterization (cfg : MatcherConfig) (v : VideoInfo) :
    (cfg.matchMode = MatchMode.any → checkVideoMatch cfg v = amendedAnyResult cfg v) ∧
    (cfg.matchMode = MatchMode.all →
      checkVideoMatch cfg v = cfg.keywords ∨ checkVideoMatch cfg v = []) := by
  constructor
  · intro h
    simp [checkVideoMatch, keywordsFoundIn, amendedAnyResult, h]
  · intro h
    by_cases hlen :
        (keywordsFoundIn cfg.caseSensitive cfg.keywords v).length = cfg.keywords.length
    · left
      have heq : keywordsFoundIn cfg.caseSensitive cfg.keywords v = cfg.keywords :=
        filter_eq_self_of_length_eq _ _ hlen
      simp [checkVideoMatch, h, hlen, heq]
    · right
      simp [checkVideoMatch, h, hlen]

/-- Matcher configuration exercising mode 'all'. -/
def cfgAllCase : MatcherConfig := ⟨["cat".toList, "dog".toList], MatchMode.all, false⟩

/-- C2 witness: the characterization applied at concrete inputs in both modes. -/
theorem checkVideoMatch_characterization_witness :
    checkVideoMatch cfgCase vCat = amendedAnyResult cfgCase vCat ∧
    (checkVideoMatch cfgAllCase vCat = cfgAllCase.keywords ∨
      checkVideoMatch cfgAllCase vCat = []) :=
  ⟨(checkVideoMatch_characterization cfgCase vCat).1 rfl,
   (checkVideoMatch_characterization cfgAllCase vCat).2 rfl⟩

/-- C9: KeywordMatcher.match returns false whenever the configured keyword
list is empty, in both match modes — the guard at the top of `match` fires
before the (otherwise vacuously true) 'all'-mode quantification. -/
theorem kmMatch_empty_keywords (cfg : MatcherConfig) (v : VideoInfo)
    (h : cfg.keywords = []) : kmMatch cfg v = false := by
  simp [kmMatch, h]

/-- Empty keyword list in mode 'all'. -/
def cfgEmptyAll : MatcherConfig := ⟨[], MatchMode.all, false⟩

/-- Empty keyword list in mode 'any'. -/
def cfgEmptyAny : MatcherConfig := ⟨[], MatchMode.any, false⟩

/-- C9 witness: the empty-keyword guard at a concrete video, in both modes. -/
theorem kmMatch_empty_keywords_witness :
    kmMatch cfgEmptyAll vCat = false ∧ kmMatch cfgEmptyAny vCat = false :=
  ⟨kmMatch_empty_keywords cfgEmptyAll vCat rfl,
   kmMatch_empty_keywords cfgEmptyAny vCat rfl⟩

/-- BilibiliPlaybackSimulator.simulatePlayback, duration math
(bilibili-simulator.ts lines 53–62): the nominal duration is scaled by the
uniform jitter factor drawn from [1 − variation/200, 1 + variation/200], the
resolved video duration falls back to 3600 when falsy, and the target is
clamped to min(randomized, max(5, resolvedDuration − buffer)) where the buffer
is drawn from [1, 3). The jitter factor and buffer are explicit parameters. -/
def safePlaybackDuration (simulatedDuration variationFactor trueDuration buffer : ℚ) : ℚ :=
  let randomizedDuration := simulatedDuration * variationFactor
  let actualVideoDuration := if trueDuration = 0 then 3600 else trueDuration
  let maxSafeSimulatedDuration := max 5 (actualVideoDuration - buffer)
  min randomizedDuration maxSafeSimulatedDuration

/-- C1 counterexample: a 3-unit video with buffer 1 and jitter factor 1 (both
inside their random ranges for the default 5% variation) yields a reported
duration of 5, which exceeds duration − 1 = 2 — the 5-unit floor overrides
the safety clamp on short videos. -/
theorem safePlaybackDuration_short_video_counterexample :
    safePlaybackDuration 30 1 3 1 = 5 ∧
    ¬ safePlaybackDuration 30 1 3 1 ≤ 3 - 1 ∧
    ((1 : ℚ) - 5 / 200 ≤ 1 ∧ (1 : ℚ) ≤ 1 + 5 / 200) ∧
    ((1 : ℚ) ≤ 1 ∧ (1 : ℚ) < 3) := by
  refine ⟨?_, ?_, ⟨by norm_num, by norm_num⟩, ⟨le_refl 1, by norm_num⟩⟩
  · simp only [safePlaybackDuration]
    norm_num
  · simp only [safePlaybackDuration]
    norm_num

/-- C1 (amended): for every non-failing invocation the returned duration is at
most max(5, resolvedDuration − buffer); whenever the safety bound
resolvedDuration − buffer is at least the 5-unit floor (so the floor does not
override it), the returned duration is at most resolvedDuration − 1, since the
buffer is at least 1. For shorter videos the 5-unit floor can exceed
duration − 1 (and even the duration itself). -/
theorem safePlaybackDuration_bound (simulatedDuration variationFactor trueDuration buffer : ℚ)
    (hbuf : 1 ≤ buffer) :
    safePlaybackDuration simulatedDuration variationFactor trueDuration buffer ≤
      max 5 ((if trueDuration = 0 then 3600 else trueDuration) - buffer) ∧
    (5 ≤ (if trueDuration = 0 then 3600 else trueDuration) - buffer →
      safePlaybackDuration simulatedDuration variationFactor trueDuration buffer ≤
        (if trueDuration = 0 then 3600 else trueDuration) - 1) := by
  constructor
  · exact min_le_right _ _
  · intro hfloor
    have h1 : safePlaybackDuration simulatedDuration variationFactor trueDuration buffer ≤
        (if trueDuration = 0 then 3600 else trueDuration) - buffer := by
      have := min_le_right (simulatedDuration * variationFactor)
        (max 5 ((if trueDuration = 0 then 3600 else trueDuration) - buffer))
      calc safePlaybackDuration simulatedDuration variationFactor trueDuration buffer ≤
            max 5 ((if trueDuration = 0 then 3600 else trueDuration) - buffer) := this
        _ = (if trueDuration = 0 then 3600 else trueDuration) - buffer := max_eq_right hfloor
    exact le_trans h1 (by linarith)

/-- C1 witness: the bound applied at a 40-unit video with buffer 2 and jitter
factor 1: the reported duration 30 is at most 39. -/
theorem safePlaybackDuration_bound_witness :
    safePlaybackDuration 30 1 40 2 ≤ max 5 ((if (40 : ℚ) = 0 then 3600 else 40) - 2) ∧
    safePlaybackDuration 30 1 40 2 ≤ (if (40 : ℚ) = 0 then 3600 else 40) - 1 :=
  ⟨(safePlaybackDuration_bound 30 1 40 2 (by norm_num)).1,
   (safePlaybackDuration_bound 30 1 40 2 (by norm_num)).2 (by norm_num)⟩

/-- Video source: 'home' | 'related' | 'short' | 'search'. -/
inductive Source
  | home
  | related
  | short
  | search

deriving instance DecidableEq for Source

/-- WatchHistory record (history-service.ts lines 9–22), restricted to the
fields the dedup interface and the claims read. The on-disk JSONL encoding is
out of scope; the file is modelled as the list of appended records. -/
structure WatchRecord where
  video : VideoInfo
  playDuration : ℕ
  matchedKeywords : List Str
  source : Source
  sessionId : Str
  isSimulated : Bool

deriving instance DecidableEq for WatchRecord

/-- HistoryService.recordWatch (history-service.ts lines 73–125): append one
record for the video to the history file. -/
def recordWatch (history : List WatchRecord) (video : VideoInfo) (playDuration : ℕ)
    (matchedKeywords : List Str) (source : Source) (sessionId : Str)
    (isSimulated : Bool) : List WatchRecord :=
  history ++ [⟨video, playDuration, matchedKeywords, source, sessionId, isSimulated⟩]

/-- HistoryService.hasWatched (history-service.ts lines 333–359): scan the
stored records for one whose video id equals the query. -/
def hasWatched (history : List WatchRecord) (videoId : Str) : Bool :=
  history.any (fun r => r.video.id == videoId)

/-- C5: immediately after recordWatch is called with a video (and any
duration, keywords, source, session id and simulated flag), hasWatched
reports that video's id as watched on the resulting store state. -/
theorem hasWatched_after_recordWatch (history : List WatchRecord) (video : VideoInfo)
    (playDuration : ℕ) (matchedKeywords : List Str) (source : Source)
    (sessionId : Str) (isSimulated : Bool) :
    hasWatched
      (recordWatch history video playDuration matchedKeywords source sessionId isSimulated)
      video.id = true := by
  simp [hasWatched, recordWatch]

/-- PlayTask status: 'pending' | 'playing' | 'completed' | 'failed'. -/
inductive TaskStatus
  | pending
  | playing
  | completed
  | failed

deriving instance DecidableEq for TaskStatus

/-- PlayTask (concurrent-player.ts lines 9–18), restricted to the fields the
claims read. -/
structure PlayTask where
  video : VideoInfo
  matchedKeywords : List Str
  source : Source
  status : TaskStatus

deriving instance DecidableEq for PlayTask

/-- ConcurrentPlayer.addToQueue (concurrent-player.ts lines 108–126): every
incoming video becomes a pending task — there is no hasWatched filter and no
duplicate check — carrying the keywords found for it among the cycle's
keyword list. -/
def cpAddToQueue (caseSensitive : Bool) (taskQueue : List PlayTask)
    (videos : List VideoInfo) (matchedKeywords : List Str) (source : Source) :
    List PlayTask :=
  taskQueue ++ videos.map (fun video =>
    ⟨video, keywordsFoundIn caseSensitive matchedKeywords video, source, TaskStatus.pending⟩)

/-- ConcurrentPlayer.getNextTask (concurrent-player.ts lines 191–197) locates
the first pending task; the model returns its position and the task. -/
def findPending : List PlayTask → Option (ℕ × PlayTask)
  | [] => none
  | t :: ts =>
    if t.status = TaskStatus.pending then some (0, t)
    else (findPending ts).map (fun p => (p.1 + 1, p.2))

/-- In-place status mutation of the task at one position of the queue. -/
def setStatusAt : List PlayTask → ℕ → TaskStatus → List PlayTask
  | [], _, _ => []
  | t :: ts, 0, s => { t with status := s } :: ts
  | t :: ts, n + 1, s => t :: setStatusAt ts n s

/-- Outcome of one ConcurrentPlayer.executeTask run. -/
structure ExecOutcome where
  status : TaskStatus
  history : List WatchRecord
  recorded : Bool

deriving instance DecidableEq for ExecOutcome

/-- ConcurrentPlayer.executeTask (concurrent-player.ts lines 202–255): on
success the task completes and a record is always appended; when the playback
sequence aborts (`playFails`), the task is marked failed and a record is
appended only when the elapsed real time exceeds 1000 ms, the error being
swallowed either way. `playFails` and `elapsedMs` stand for the
nondeterministic network outcome and wall clock. -/
def executeTask (history : List WatchRecord) (task : PlayTask) (sessionId : Str)
    (playFails : Bool) (elapsedMs : ℕ) : ExecOutcome :=
  if playFails then
    if 1000 < elapsedMs then
      ⟨TaskStatus.failed,
        recordWatch history task.video elapsedMs task.matchedKeywords task.source sessionId false,
        true⟩
    else
      ⟨TaskStatus.failed, history, false⟩
  else
    ⟨TaskStatus.completed,
      recordWatch history task.video elapsedMs task.matchedKeywords task.source sessionId false,
      true⟩

/-- One iteration of ConcurrentPlayer.playerWorker (concurrent-player.ts
lines 155–197) once the poll finds a task: pop the first pending task; if its
video is already in the history store, mark it completed with no telemetry
and no record; otherwise run executeTask (which invokes the platform's
playback — the Bool in the result records whether telemetry was invoked). -/
def playerWorkerStep (history : List WatchRecord) (queue : List PlayTask)
    (sessionId : Str) (playFails : Bool) (elapsedMs : ℕ) :
    List PlayTask × List WatchRecord × Bool :=
  match findPending queue with
  | none => (queue, history, false)
  | some (i, task) =>
    if hasWatched history task.video.id then
      (setStatusAt queue i TaskStatus.completed, history, false)
    else
      let outcome := executeTask history task sessionId playFails elapsedMs
      (setStatusAt queue i outcome.status, outcome.history, true)

/-- Queue entry of the SimulatedPlaybackManager: a video and its source. -/
structure QueueItem where
  video : VideoInfo
  source : Source

deriving instance DecidableEq for QueueItem

/-- SimulatedPlaybackManager.addToQueue (simulated-playback-manager.ts, shown
at concurrent-player.ts concatenation lines 478–508): drop incoming videos
already recorded as watched or whose id is already in the queue, then append
the survivors, each tagged with the given source. There is no capacity check. -/
def smAddToQueue (history : List WatchRecord) (queue : List QueueItem)
    (videos : List VideoInfo) (source : Source) : List QueueItem :=
  let newVideos := videos.filter (fun video =>
    !hasWatched history video.id && !(queue.any (fun q => q.video.id == video.id)))
  queue ++ newVideos.map (fun video => ⟨video, source⟩)

/-- Concrete second video, distinct from `vCat`. -/
def vDog : VideoInfo := ⟨"BV2".toList, "Dog".toList, [], []⟩

/-- Concrete session id. -/
def sid1 : Str := "s1".toList

/-- History store already holding a record for `vCat`. -/
def histCat : List WatchRecord := [⟨vCat, 5000, [], Source.home, sid1, false⟩]

/-- Pending task for `vCat`. -/
def taskCat : PlayTask := ⟨vCat, [], Source.home, TaskStatus.pending⟩

/-- C4 counterexample: `vCat` is already recorded in the history store, yet
ConcurrentPlayer.addToQueue re-queues it as a pending task — admission there
performs no hasWatched filtering. -/
theorem cpAddToQueue_requeues_watched_counterexample :
    hasWatched histCat vCat.id = true ∧
    cpAddToQueue false [] [vCat] [] Source.home = [taskCat] := by
  decide

/-- C4 (amended): a watched item can be re-queued by ConcurrentPlayer's
admission, but is never re-executed there: a worker that pops a task whose
video is already in the history store marks it completed with no telemetry
invocation and no new record. SimulatedPlaybackManager's admission does
filter: every entry of its queue after a call was already queued or was
unwatched when admitted. -/
theorem watched_item_never_reexecuted (history : List WatchRecord) (queue : List PlayTask)
    (sessionId : Str) (playFails : Bool) (elapsedMs : ℕ) (i : ℕ) (task : PlayTask)
    (managerQueue : List QueueItem) (videos : List VideoInfo) (src : Source) :
    (findPending queue = some (i, task) → hasWatched history task.video.id = true →
      playerWorkerStep history queue sessionId playFails elapsedMs =
        (setStatusAt queue i TaskStatus.completed, history, false)) ∧
    (∀ item ∈ smAddToQueue history managerQueue videos src,
      item ∈ managerQueue ∨ hasWatched history item.video.id = false) := by
  constructor
  · intro hfind hw
    simp [playerWorkerStep, hfind, hw]
  · intro item hitem
    simp only [smAddToQueue, List.mem_append, List.mem_map] at hitem
    rcases hitem with hold | ⟨video, hvmem, rfl⟩
    · exact Or.inl hold
    · right
      obtain ⟨-, hP⟩ := List.mem_filter.1 hvmem
      simp only [Bool.and_eq_true] at hP
      simpa using hP.1

/-- Queue with the single pending task for `vCat`. -/
def qCat : List PlayTask := [taskCat]

/-- C4 witness: the amended statement applied at concrete inputs — popping the
watched `vCat` task completes it without touching the history, and manager
admission of a watched and an unwatched video. -/
theorem watched_item_never_reexecuted_witness :
    playerWorkerStep histCat qCat sid1 false 0 =
      (setStatusAt qCat 0 TaskStatus.completed, histCat, false) ∧
    (∀ item ∈ smAddToQueue histCat [] [vCat, vDog] Source.home,
      item ∈ ([] : List QueueItem) ∨ hasWatched histCat item.video.id = false) :=
  ⟨(watched_item_never_reexecuted histCat qCat sid1 false 0 0 taskCat [] [] Source.home).1
      (by decide) (by decide),
   (watched_item_never_reexecuted histCat qCat sid1 false 0 0 taskCat [] [vCat, vDog]
      Source.home).2⟩

/-- C10 counterexample: a batch holding the same video twice defeats the
dedup filter of SimulatedPlaybackManager.addToQueue — the filter only checks
the pre-existing queue, not the batch itself — so a queue with distinct ids
(here the empty queue) gains duplicate ids. -/
theorem smAddToQueue_duplicate_batch_counterexample :
    (([] : List QueueItem).map (fun i => i.video.id)).Nodup ∧
    ¬ ((smAddToQueue [] [] [vCat, vCat] Source.home).map (fun i => i.video.id)).Nodup := by
  constructor
  · decide
  · decide

/-- C10 (amended): SimulatedPlaybackManager.addToQueue preserves pairwise
distinctness of queued video ids provided the ids within the incoming batch
are themselves pairwise distinct: watched or already-queued videos are
filtered out before the rest are appended. -/
theorem smAddToQueue_nodup (history : List WatchRecord) (queue : List QueueItem)
    (videos : List VideoInfo) (src : Source)
    (hq : (queue.map (fun i => i.video.id)).Nodup)
    (hv : (videos.map (fun v => v.id)).Nodup) :
    ((smAddToQueue history queue videos src).map (fun i => i.video.id)).Nodup := by
  have hsub : List.Sublist (videos.filter (fun video =>
      !hasWatched history video.id && !(queue.any (fun q => q.video.id == video.id)))) videos :=
    List.filter_sublist videos
  simp only [smAddToQueue, List.map_append, List.map_map]
  rw [List.nodup_append]
  refine ⟨hq, ?_, ?_⟩
  · exact List.Nodup.sublist (List.Sublist.map _ hsub) hv
  · intro x hx hx'
    obtain ⟨q, hqmem, hqid⟩ := List.mem_map.1 hx
    obtain ⟨video, hvmem, hvid⟩ := List.mem_map.1 hx'
    obtain ⟨-, hP⟩ := List.mem_filter.1 hvmem
    simp only [Bool.and_eq_true] at hP
    have hany : queue.any (fun q => q.video.id == video.id) = true :=
      List.any_eq_true.2 ⟨q, hqmem, by simp [hqid, ← hvid]⟩
    simpa [hany] using hP.2

/-- C10 witness: the amended statement at a concrete two-video batch with
distinct ids over the empty queue. -/
theorem smAddToQueue_nodup_witness :
    ((smAddToQueue histCat [] [vCat, vDog] Source.home).map (fun i => i.video.id)).Nodup :=
  smAddToQueue_nodup histCat [] [vCat, vDog] Source.home (by decide) (by decide)

/-- AlgorithmFeeder.getMatchedKeywords (feeder.ts lines 477–489): the shared
keyword scan over the configured keyword list. -/
def getMatchedKeywords (cfg : MatcherConfig) (v : VideoInfo) : List Str :=
  keywordsFoundIn cfg.caseSensitive cfg.keywords v

/-- AlgorithmFeeder.playTargetVideo (feeder.ts lines 400–453): on success a
record is appended; when playback throws, a record is appended only when the
elapsed real time exceeds 1000 ms, and the error is swallowed. The matched
keywords are the search keyword when one is given, otherwise the keyword
scan's result. -/
def playTargetVideo (history : List WatchRecord) (cfg : MatcherConfig) (video : VideoInfo)
    (searchKeyword : Option Str) (source : Source) (sessionId : Str)
    (playFails : Bool) (elapsedMs : ℕ) : List WatchRecord :=
  let matchedKeywords := match searchKeyword with
    | some k => [k]
    | none => getMatchedKeywords cfg video
  if playFails then
    if 1000 < elapsedMs then
      recordWatch history video elapsedMs matchedKeywords source sessionId false
    else history
  else
    recordWatch history video elapsedMs matchedKeywords source sessionId false

/-- A queue without pending tasks yields no next task: failed (or completed)
tasks are never selected again. -/
theorem findPending_eq_none (queue : List PlayTask)
    (h : ∀ t ∈ queue, t.status ≠ TaskStatus.pending) : findPending queue = none := by
  induction queue with
  | nil => rfl
  | cons t ts ih =>
    unfold findPending
    rw [if_neg (h t (List.mem_cons_self t ts)), ih (fun u hu => h u (List.mem_cons_of_mem _ hu))]
    rfl

/-- C8: when a worker task's playback sequence aborts, a session record is
appended iff the elapsed real time exceeds 1000 ms (below the threshold the
failure leaves the history untouched); the task is marked failed, a failed
task is never selected again (no automatic retry), and the same threshold
governs the single-thread playTargetVideo error path. -/
theorem failedTask_threshold_recording (history : List WatchRecord) (task : PlayTask)
    (sessionId : Str) (elapsedMs : ℕ) (queue : List PlayTask)
    (cfg : MatcherConfig) (video : VideoInfo) (searchKeyword : Option Str) (source : Source) :
    ((executeTask history task sessionId true elapsedMs).recorded = true ↔ 1000 < elapsedMs) ∧
    (executeTask history task sessionId true elapsedMs).status = TaskStatus.failed ∧
    (1000 < elapsedMs →
      (executeTask history task sessionId true elapsedMs).history =
        recordWatch history task.video elapsedMs task.matchedKeywords task.source
          sessionId false) ∧
    (¬ 1000 < elapsedMs →
      (executeTask history task sessionId true elapsedMs).history = history) ∧
    (1000 < elapsedMs →
      playTargetVideo history cfg video searchKeyword source sessionId true elapsedMs =
        recordWatch history video elapsedMs
          (match searchKeyword with
            | some k => [k]
            | none => getMatchedKeywords cfg video) source sessionId false) ∧
    (¬ 1000 < elapsedMs →
      playTargetVideo history cfg video searchKeyword source sessionId true elapsedMs =
        history) ∧
    ((∀ t ∈ queue, t.status ≠ TaskStatus.pending) → findPending queue = none) := by
  refine ⟨?_, ?_, ?_, ?_, ?_, ?_, findPending_eq_none queue⟩
  · by_cases h : 1000 < elapsedMs <;> simp [executeTask, h]
  · by_cases h : 1000 < elapsedMs <;> simp [executeTask, h]
  · intro h; simp [executeTask, h]
  · intro h; simp [executeTask, h]
  · intro h; simp [playTargetVideo, h]
  · intro h; simp [playTargetVideo, h]

/-- Queue holding a single already-failed task. -/
def qFailed : List PlayTask := [⟨vCat, [], Source.home, TaskStatus.failed⟩]

/-- C8 witness: at 2000 ms elapsed the failed task is recorded; at 500 ms the
history is untouched; the failed task is not selected again. -/
theorem failedTask_threshold_recording_witness :
    (executeTask [] taskCat sid1 true 2000).recorded = true ∧
    (executeTask [] taskCat sid1 true 500).history = [] ∧
    findPending qFailed = none :=
  ⟨(failedTask_threshold_recording [] taskCat sid1 2000 [] cfgCase vCat none
      Source.home).1.mpr (by norm_num),
   (failedTask_threshold_recording [] taskCat sid1 500 [] cfgCase vCat none
      Source.home).2.2.2.1 (by norm_num),
   (failedTask_threshold_recording [] taskCat sid1 500 qFailed cfgCase vCat none
      Source.home).2.2.2.2.2.2 (by decide)⟩

/-- Active-search configuration (feeder.ts lines 260–268):
enableActiveSearch and activeSearchThreshold. -/
structure ActiveSearchConfig where
  enabled : Bool
  threshold : ℕ

deriving instance DecidableEq for ActiveSearchConfig

/-- Feeder configuration read by the feeding loop: matcher, maxQueueSize,
maxVideosPerQueue, active-search settings. -/
structure FeederConfig where
  matcher : MatcherConfig
  maxQueueSize : ℕ
  maxVideosPerQueue : ℕ
  activeSearch : ActiveSearchConfig

deriving instance DecidableEq for FeederConfig

/-- Orchestrator state in simulated-playback mode: the feeder's own
videoQueue (only ever filled in single-thread mode), the
SimulatedPlaybackManager's videoQueue that the workers consume, the shared
history store, and the consecutive-miss counter. -/
structure SimFeederState where
  feederQueue : List VideoInfo
  managerQueue : List QueueItem
  history : List WatchRecord
  missedRounds : ℕ

deriving instance DecidableEq for SimFeederState

/-- Result of AlgorithmFeeder.performActiveSearch (feeder.ts lines 290–362) in
simulated-playback mode: which videos are handed to admission, under which
source tag, and whether the search counts as a success. An empty result list
is a failure with nothing admitted; when results exist but none matches, the
single first result is admitted anyway; otherwise all matching results are
admitted. Everything is tagged source 'search'. -/
structure SearchOutcome where
  admitted : List VideoInfo
  source : Source
  success : Bool

deriving instance DecidableEq for SearchOutcome

/-- AlgorithmFeeder.performActiveSearch (feeder.ts lines 290–362), with the
platform's search results as an explicit parameter. -/
def performActiveSearch (matcher : MatcherConfig) (searchResults : List VideoInfo) :
    SearchOutcome :=
  if searchResults.isEmpty then ⟨[], Source.search, false⟩
  else
    let targetVideos := searchResults.filter (fun v => kmMatch matcher v)
    if targetVideos.isEmpty then ⟨searchResults.take 1, Source.search, true⟩
    else ⟨targetVideos, Source.search, true⟩

/-- One cycle of AlgorithmFeeder.feedingLoop (feeder.ts lines 159–252) in
simulated-playback mode, together with checkActiveSearch (lines 260–285):
skip the whole cycle when the feeder's own videoQueue is at capacity
(note: not the manager's queue); otherwise filter the recommendations, and
either admit up to maxVideosPerQueue matches into the manager queue and reset
missedRounds, or increment missedRounds and, at the threshold, run the active
search — resetting the counter and admitting on success, halving the counter
on failure. The cycle's recommendations and the search results stand for the
platform calls. -/
def feedingCycleSim (cfg : FeederConfig) (st : SimFeederState) (videos : List VideoInfo)
    (source : Source) (searchResults : List VideoInfo) : SimFeederState :=
  if cfg.maxQueueSize ≤ st.feederQueue.length then st
  else
    let targetVideos := videos.filter (fun v => kmMatch cfg.matcher v)
    if targetVideos.isEmpty then
      let missed := st.missedRounds + 1
      if cfg.activeSearch.enabled && cfg.activeSearch.threshold ≤ missed then
        let outcome := performActiveSearch cfg.matcher searchResults
        if outcome.success then
          { st with
            missedRounds := 0,
            managerQueue := smAddToQueue st.history st.managerQueue outcome.admitted
              Source.search }
        else
          { st with missedRounds := missed / 2 }
      else
        { st with missedRounds := missed }
    else
      { st with
        missedRounds := 0,
        managerQueue := smAddToQueue st.history st.managerQueue
          (targetVideos.take cfg.maxVideosPerQueue) source }

/-- Video whose title "alpha" matches keyword "a". -/
def vAlpha : VideoInfo := ⟨"b1".toList, "alpha".toList, [], []⟩

/-- A second matching video, distinct id. -/
def vBeta : VideoInfo := ⟨"b2".toList, "apple".toList, [], []⟩

/-- Feeder configuration with queue capacity 1, keyword "a" in mode 'any',
active search disabled. -/
def cfgCap1 : FeederConfig := ⟨⟨["a".toList], MatchMode.any, false⟩, 1, 5, ⟨false, 10⟩⟩

/-- Empty initial feeder state. -/
def st0 : SimFeederState := ⟨[], [], [], 0⟩

/-- C3: in simulated-playback mode the queue the workers consume can exceed
maxQueueSize. Two cycles each discovering one fresh matching video drive the
manager queue to 2 entries with capacity 1, because the capacity guard reads
the feeder's own videoQueue — which stays empty in this mode — and
SimulatedPlaybackManager.addToQueue performs no capacity check. -/
theorem managerQueue_exceeds_capacity :
    (feedingCycleSim cfgCap1 (feedingCycleSim cfgCap1 st0 [vAlpha] Source.home [])
        [vBeta] Source.home []).managerQueue.length = 2 ∧
    cfgCap1.maxQueueSize = 1 ∧
    (feedingCycleSim cfgCap1 (feedingCycleSim cfgCap1 st0 [vAlpha] Source.home [])
        [vBeta] Source.home []).feederQueue = [] := by
  decide

/-- C6: over one non-skipped feeding cycle, the consecutive-miss counter
resets to 0 when the cycle has at least one matching video (in particular on
any admission); on a zero-match cycle it resets to 0 when the triggered
active search succeeds, becomes floor of half its incremented value when the
triggered active search fails, and increases by exactly 1 when the
incremented value stays below the threshold. -/
theorem missedRounds_update (cfg : FeederConfig) (st : SimFeederState)
    (videos : List VideoInfo) (source : Source) (searchResults : List VideoInfo)
    (hq : st.feederQueue.length < cfg.maxQueueSize) :
    (videos.filter (fun v => kmMatch cfg.matcher v) ≠ [] →
      (feedingCycleSim cfg st videos source searchResults).missedRounds = 0) ∧
    (videos.filter (fun v => kmMatch cfg.matcher v) = [] →
      ((cfg.activeSearch.enabled = true → cfg.activeSearch.threshold ≤ st.missedRounds + 1 →
        ((performActiveSearch cfg.matcher searchResults).success = true →
          (feedingCycleSim cfg st videos source searchResults).missedRounds = 0) ∧
        ((performActiveSearch cfg.matcher searchResults).success = false →
          (feedingCycleSim cfg st videos source searchResults).missedRounds =
            (st.missedRounds + 1) / 2)) ∧
      (st.missedRounds + 1 < cfg.activeSearch.threshold →
        (feedingCycleSim cfg st videos source searchResults).missedRounds =
          st.missedRounds + 1))) := by
  have hq' : ¬ cfg.maxQueueSize ≤ st.feederQueue.length := not_le.mpr hq
  constructor
  · intro hne
    simp [feedingCycleSim, hq', hne]
  · intro hmatch
    constructor
    · intro hen hthr
      constructor
      · intro hsucc
        simp [feedingCycleSim, hq', hmatch, hen, hthr, hsucc]
      · intro hfail
        simp [feedingCycleSim, hq', hmatch, hen, hthr, hfail]
    · intro hlt
      simp [feedingCycleSim, hq', hmatch, Nat.not_le.mpr hlt]

/-- Feeder configuration with active search enabled at threshold 2. -/
def cfgC6 : FeederConfig := ⟨⟨["a".toList], MatchMode.any, false⟩, 20, 5, ⟨true, 2⟩⟩

/-- State with one miss already accumulated. -/
def stMiss : SimFeederState := ⟨[], [], [], 1⟩

/-- C6 witness: the counter update applied at concrete cycles — a match
resets it, a successful triggered search resets it, a failed triggered search
halves the incremented value, and a below-threshold miss increments it. -/
theorem missedRounds_update_witness :
    (feedingCycleSim cfgC6 st0 [vAlpha] Source.home []).missedRounds = 0 ∧
    (feedingCycleSim cfgC6 stMiss [] Source.home [vAlpha]).missedRounds = 0 ∧
    (feedingCycleSim cfgC6 stMiss [] Source.home []).missedRounds =
      (stMiss.missedRounds + 1) / 2 ∧
    (feedingCycleSim cfgC6 st0 [] Source.home []).missedRounds = st0.missedRounds + 1 :=
  ⟨(missedRounds_update cfgC6 st0 [vAlpha] Source.home [] (by decide)).1 (by decide),
   (((missedRounds_update cfgC6 stMiss [] Source.home [vAlpha] (by decide)).2 rfl).1
      rfl (by decide)).1 (by decide),
   (((missedRounds_update cfgC6 stMiss [] Source.home [] (by decide)).2 rfl).1
      rfl (by decide)).2 (by decide),
   ((missedRounds_update cfgC6 st0 [] Source.home [] (by decide)).2 rfl).2 (by decide)⟩

/-- C7: when the keyword search returns a non-empty list but no result
matches, exactly the single first result is handed to admission, tagged
source 'search', and the search counts as a success — so a triggered
active-search cycle ends with the miss counter reset to 0 and the top result
admitted to the manager queue; an empty result list is a failure with
nothing admitted. -/
theorem performActiveSearch_nudge (m : MatcherConfig) (rs : List VideoInfo)
    (cfg : FeederConfig) (st : SimFeederState) (videos : List VideoInfo) (source : Source)
    (hne : rs ≠ []) (hnomatch : rs.filter (fun v => kmMatch m v) = []) :
    performActiveSearch m rs = ⟨rs.take 1, Source.search, true⟩ ∧
    (rs.take 1).length = 1 ∧
    performActiveSearch m [] = ⟨[], Source.search, false⟩ ∧
    (st.feederQueue.length < cfg.maxQueueSize →
      videos.filter (fun v => kmMatch cfg.matcher v) = [] →
      cfg.activeSearch.enabled = true →
      cfg.activeSearch.threshold ≤ st.missedRounds + 1 →
      cfg.matcher = m →
      feedingCycleSim cfg st videos source rs =
        { st with
          missedRounds := 0,
          managerQueue := smAddToQueue st.history st.managerQueue (rs.take 1)
            Source.search }) := by
  have hOut : performActiveSearch m rs = ⟨rs.take 1, Source.search, true⟩ := by
    simp [performActiveSearch, hne, hnomatch]
  refine ⟨hOut, ?_, rfl, ?_⟩
  · have hlen : rs.length ≠ 0 := fun h0 => hne (List.eq_nil_of_length_eq_zero h0)
    rw [List.length_take]
    omega
  · intro hq hmatch hen hthr hm
    subst hm
    simp [feedingCycleSim, not_le.mpr hq, hmatch, hen, hthr, hOut]

/-- Video matching no configured keyword. -/
def vNoMatch : VideoInfo := ⟨"b3".toList, "zzz".toList, [], []⟩

/-- C7 witness: the nudge applied at a concrete one-result search with no
match, inside a triggered active-search cycle. -/
theorem performActiveSearch_nudge_witness :
    performActiveSearch cfgC6.matcher [vNoMatch] =
      ⟨[vNoMatch].take 1, Source.search, true⟩ ∧
    feedingCycleSim cfgC6 stMiss [] Source.home [vNoMatch] =
      { stMiss with
        missedRounds := 0,
        managerQueue := smAddToQueue stMiss.history stMiss.managerQueue ([vNoMatch].take 1)
          Source.search } :=
  have h := performActiveSearch_nudge cfgC6.matcher [vNoMatch] cfgC6 stMiss [] Source.home
    (by decide) (by decide)
  ⟨h.1, h.2.2.2 (by decide) rfl rfl (by decide) rfl⟩
